import Mathlib

/-!
Verification of the Krishimitra Forecast & Oversight pipeline.

Shallow embedding, over exact rationals, of:
  - backend/services/overseer_service.py  (Overseer.evaluate and its six checks)
  - backend/services/karnataka_predictor.py (GroundnutPredictor.predict/forecast)
  - backend/services/maharashtra_predictor.py (CabbagePredictor.predict/forecast,
    CabbagePredictor._build_feature_row market resolution)
  - backend/mysuru_agri_ai/pipeline/predict.py (_compute_scenario_confidence)

Python floats are modelled as exact rationals; Python round() (banker's
rounding, ties to even) is modelled exactly.  Database query results and the
trained regressors' outputs are modelled as explicit inputs (oracles), since
they are data, not code.
-/

namespace Krishimitra

/-! ## Numeric helpers -/

/-- Python round(q): nearest integer, ties to even (banker's rounding). -/
def roundHalfEven (q : ℚ) : ℤ :=
  if q - ⌊q⌋ < 1/2 then ⌊q⌋
  else if 1/2 < q - ⌊q⌋ then ⌊q⌋ + 1
  else if ⌊q⌋ % 2 = 0 then ⌊q⌋ else ⌊q⌋ + 1

/-- Python round(q, 1). -/
def round1 (q : ℚ) : ℚ := (roundHalfEven (10 * q) : ℚ) / 10

/-- Python round(q, 3). -/
def round3 (q : ℚ) : ℚ := (roundHalfEven (1000 * q) : ℚ) / 1000

/-- Arithmetic mean, sum(xs)/len(xs); 0 on the empty list (the sources only
take means of lists already known to be nonempty). -/
def meanQ (xs : List ℚ) : ℚ := xs.sum / (xs.length : ℚ)

/-- Population variance (numpy std with ddof = 0, squared). -/
def varPop (xs : List ℚ) : ℚ :=
  ((xs.map (fun x => (x - meanQ xs) ^ 2)).sum) / (xs.length : ℚ)

/-- numpy clip(x, lo, hi). -/
def npClip (x lo hi : ℚ) : ℚ := min hi (max lo x)

/-! ## Overseer data model (overseer_service.py) -/

/-- One warning entry; the free-prose message/detail fields carry no control
flow and are elided, the code and severity are kept verbatim. -/
structure Warning where
  code : String
  severity : String
deriving DecidableEq, Repr

/-- Value of an override field: the source stores either a string (the
recommendation text) or an integer (wait_days). -/
inductive OvVal
  | s (v : String)
  | i (v : ℤ)
deriving DecidableEq, Repr

/-- One override entry, as built by _check_perishable_risk / _react_to_drift. -/
structure Override where
  field : String
  old_value : OvVal
  new_value : OvVal
  reason : String
deriving DecidableEq, Repr

/-- The recommendation_data dict read at the top of Overseer.evaluate, with
the .get defaults from the source. -/
structure RecommendationData where
  crop : String := "Rice"
  current_price : ℚ := 0
  peak_price : ℚ := 0
  wait_days : ℤ := 0
  risk_level : String := "LOW"
  recommendation : String := "HOLD"
  mandi : String := "Pune Mandi"
deriving Repr

/-- The features dict as read by _check_data_quality (only the keys that
check inspects, with the .get defaults). -/
structure FeatureContext where
  momentum_data_points : ℤ := 0
  seasonal_interpretation : String := ""
  rainfall_interpretation : String := ""
deriving Repr

/-- Database query results consumed by the checks: the 30-day PriceHistory
for the crop (date ascending, used by _cross_validate_forecast), the 7-day
and 8..30-day PriceHistory for (crop, mandi) (used by _detect_drift), and
the error_pct values of the last 90 days of EvaluationMetric rows (used by
_check_historical_accuracy). -/
structure DbContext where
  history : List ℚ
  recent7 : List ℚ
  baseline23 : List ℚ
  error_pcts : List ℚ
deriving Repr

structure AnomalyOut where
  penalty : ℚ
  warnings : List Warning
  count : ℕ
deriving Repr

structure CheckOut where
  penalty : ℚ
  warnings : List Warning
deriving Repr

/-- _check_anomalies.  forecastPrices is none when forecast_data is falsy or
has no forecast key.  The coefficient-of-variation test std/mean > 0.15 (with
mean > 0) is stated in the exactly equivalent squared form
varPop > (0.15*mean)^2, since std is an irrational square root. -/
def checkAnomalies (current peak : ℚ) (wait : ℤ) (forecastPrices : Option (List ℚ)) :
    AnomalyOut :=
  let jump := (peak - current) / current * 100
  let a1 := 0 < current ∧ 20 < jump
  let a2 := 0 < current ∧ jump < -15
  let a3 := 60 < wait
  let prices := forecastPrices.getD []
  let a4 := forecastPrices.isSome = true ∧ prices ≠ [] ∧ 0 < meanQ prices ∧
      (0.15 * meanQ prices) ^ 2 < varPop prices
  { penalty := (if a1 then 0.15 else 0) + (if a2 then 0.10 else 0) +
      (if a3 then 0.08 else 0) + (if a4 then 0.08 else 0)
  , warnings := (if a1 then [⟨"UNREALISTIC_SPIKE", "high"⟩] else []) ++
      (if a2 then [⟨"SHARP_DECLINE_PREDICTED", "high"⟩] else []) ++
      (if a3 then [⟨"EXCESSIVE_HOLD_PERIOD", "medium"⟩] else []) ++
      (if a4 then [⟨"HIGH_FORECAST_VARIANCE", "medium"⟩] else [])
  , count := (if a1 then 1 else 0) + (if a2 then 1 else 0) +
      (if a3 then 1 else 0) + (if a4 then 1 else 0) }

/-- _cross_validate_forecast, on the success path of its try block (DB
exceptions are caught in the source and yield penalty 0). -/
def crossValidateForecast (history : List ℚ) (current peak : ℚ) (wait : ℤ) :
    CheckOut :=
  if 7 ≤ history.length then
    let firstP := history.headD 0
    let lastP := history.getLastD 0
    let rollingTrend := if 0 < firstP then (lastP - firstP) / firstP * 100 else 0
    let dailyRate := rollingTrend / 30
    let baselinePeak := current * (1 + dailyRate * (wait : ℚ) / 100)
    if 0 < peak ∧ 0 < baselinePeak then
      let divergence := |peak - baselinePeak| / baselinePeak * 100
      if 25 < divergence then ⟨0.10, [⟨"FORECAST_BASELINE_DIVERGENCE", "medium"⟩]⟩
      else ⟨0, []⟩
    else ⟨0, []⟩
  else ⟨0, [⟨"INSUFFICIENT_CROSSVAL_DATA", "low"⟩]⟩

/-- PERISHABLE_CROPS table of _check_perishable_risk:
max_safe_days and risk_multiplier per crop. -/
def perishableInfo (crop : String) : Option (ℤ × ℚ) :=
  if crop = "Onion" then some (14, 2.5)
  else if crop = "Sugarcane" then some (3, 4.0)
  else if crop = "Tomato" then some (7, 3.0)
  else none

structure PerishOut where
  penalty : ℚ
  warnings : List Warning
  override : Option Override
deriving Repr

/-- The override record _check_perishable_risk builds. -/
def mkPerishOverride (crop : String) (wait maxDays : ℤ) : Override :=
  { field := "recommendation", old_value := .s "HOLD", new_value := .s "SELL NOW",
    reason := "Overseer override: " ++ crop ++
      " cannot be safely stored for " ++ toString wait ++
      " days (max safe storage: " ++ toString maxDays ++
      " days). Selling now prevents spoilage losses." }

/-- The override _check_perishable_risk builds when a HOLD exceeds the safe
window. -/
def perishOverride (crop rec : String) (wait : ℤ) : Option Override :=
  match perishableInfo crop with
  | none => none
  | some (maxDays, _) =>
    if rec = "HOLD" ∧ maxDays < wait then some (mkPerishOverride crop wait maxDays)
    else none

/-- _check_perishable_risk. -/
def checkPerishableRisk (crop rec : String) (wait : ℤ) (riskLevel : String) :
    PerishOut :=
  match perishableInfo crop with
  | none => ⟨0, [], none⟩
  | some (maxDays, mult) =>
    let c1 := (maxDays : ℚ) * 0.5 < (wait : ℚ)
    let c2 := rec = "HOLD" ∧ maxDays < wait
    let c3 := riskLevel = "HIGH"
    { penalty := (if c1 then 0.10 else 0) + (if c2 then 0.15 else 0) +
        (if c3 then 0.05 * mult else 0)
    , warnings := (if c1 then [⟨"PERISHABLE_HOLD_RISK", "high"⟩] else []) ++
        (if c2 then [⟨"PERISHABLE_OVERRIDE", "critical"⟩] else []) ++
        (if c3 then [⟨"PERISHABLE_HIGH_VOLATILITY", "high"⟩] else [])
    , override := perishOverride crop rec wait }

/-- _check_data_quality (features falsy modelled as none). -/
def checkDataQuality (feat : Option FeatureContext) : CheckOut :=
  match feat with
  | none => ⟨0.10, [⟨"NO_FEATURES_COMPUTED", "medium"⟩]⟩
  | some f =>
    let c1 := f.momentum_data_points < 3
    let c2 := f.seasonal_interpretation = "default_pattern"
    let c3 := f.rainfall_interpretation = "no_data"
    ⟨(if c1 then 0.05 else 0) + (if c2 then 0.03 else 0) + (if c3 then 0.03 else 0),
     (if c1 then [⟨"SPARSE_PRICE_DATA", "medium"⟩] else []) ++
     (if c2 then [⟨"DEFAULT_SEASONAL_DATA", "low"⟩] else []) ++
     (if c3 then [⟨"NO_WEATHER_HISTORY", "low"⟩] else [])⟩

/-- The dict returned by _detect_drift.  In the insufficient-data branch the
source returns a dict without shift_pct/direction keys and _react_to_drift
reads them through .get with defaults 0 and unknown; those defaults are
stored here directly. -/
structure DriftResult where
  detected : Bool
  shiftPct : ℚ
  direction : String
deriving DecidableEq, Repr

/-- The unrounded shift_pct of _detect_drift. -/
def driftShift (recent baseline : List ℚ) : ℚ :=
  if 0 < meanQ baseline then |meanQ recent - meanQ baseline| / meanQ baseline * 100
  else 0

/-- _detect_drift on the success path of its try block.  shiftPct is the
round(shift_pct, 1) the source puts in the returned dict; detected compares
the unrounded value against 10. -/
def detectDrift (recent baseline : List ℚ) : DriftResult :=
  if recent.length < 3 ∨ baseline.length < 5 then ⟨false, 0, "unknown"⟩
  else
    ⟨decide (10 < driftShift recent baseline), round1 (driftShift recent baseline),
     if meanQ baseline < meanQ recent then "upward" else "downward"⟩

structure DriftAction where
  warnings : List Warning
  override : Option Override
deriving Repr

/-- The forced-sell override record of _react_to_drift. -/
def mkDriftSell (shiftPct : ℚ) (crop : String) : Override :=
  { field := "recommendation", old_value := .s "HOLD", new_value := .s "SELL NOW",
    reason := "Drift detected: prices have dropped " ++
      toString (roundHalfEven shiftPct) ++
      "% in the last week. Holding " ++ crop ++
      " during a downward shift risks further losses." }

/-- The horizon-reduction override record of _react_to_drift. -/
def mkDriftHorizon (shiftPct : ℚ) (direction : String) (wait : ℤ) : Override :=
  { field := "wait_days", old_value := .i wait, new_value := .i 14,
    reason := "Drift detected (" ++ toString (roundHalfEven shiftPct) ++
      "% " ++ direction ++ " shift). Reducing forecast horizon from " ++
      toString wait ++ " to 14 days for safety." }

/-- The single override slot of _react_to_drift: the slot is assigned by the
horizon rule first and overwritten by the forced-sell rule when both fire,
so the forced-sell rule takes priority exactly as in the source. -/
def driftOverride (dr : DriftResult) (rec : String) (wait : ℤ) (crop : String) :
    Option Override :=
  if 15 < dr.shiftPct ∧ dr.direction = "downward" ∧ rec = "HOLD" then
    some (mkDriftSell dr.shiftPct crop)
  else if 15 < dr.shiftPct ∧ rec = "HOLD" ∧ 14 < wait then
    some (mkDriftHorizon dr.shiftPct dr.direction wait)
  else none

/-- _react_to_drift. -/
def reactToDrift (dr : DriftResult) (rec : String) (wait : ℤ) (crop : String) :
    DriftAction :=
  let r1 := 15 < dr.shiftPct ∧ rec = "HOLD" ∧ 14 < wait
  let r2 := 15 < dr.shiftPct ∧ dr.direction = "downward" ∧ rec = "HOLD"
  let r3 := 10 < dr.shiftPct
  { warnings := (if r1 then [⟨"DRIFT_HORIZON_REDUCED", "high"⟩] else []) ++
      (if r2 then [⟨"DRIFT_FORCED_SELL", "critical"⟩] else []) ++
      (if r3 then [⟨"DRIFT_CONSERVATIVE_MODE", "medium"⟩] else [])
  , override := driftOverride dr rec wait crop }

/-- _check_historical_accuracy on the success path of its try block. -/
def checkHistoricalAccuracy (errs : List ℚ) : CheckOut :=
  if errs = [] then ⟨0, [⟨"NO_ACCURACY_HISTORY", "low"⟩]⟩
  else
    let avg := meanQ errs
    if 25 < avg then ⟨0.15, [⟨"HIGH_HISTORICAL_ERROR", "high"⟩]⟩
    else if 15 < avg then ⟨0.08, [⟨"MODERATE_HISTORICAL_ERROR", "medium"⟩]⟩
    else ⟨0, []⟩

/-- _confidence_to_risk_language, returning only the label (the farmer
message is parallel free prose). -/
def confidenceToRiskLabel (score : ℚ) : String :=
  if 0.85 ≤ score ∧ score < 1.00 then "High reliability"
  else if 0.70 ≤ score ∧ score < 0.85 then "Good reliability"
  else if 0.55 ≤ score ∧ score < 0.70 then "Moderate reliability"
  else if 0.40 ≤ score ∧ score < 0.55 then "Limited reliability"
  else if 1.0 ≤ score then "High reliability"
  else "Limited reliability"

/-- The oversight dict returned by Overseer.evaluate (fields relevant to the
verified properties). -/
structure Oversight where
  adjusted_confidence : ℚ
  original_confidence : ℚ
  confidence_delta : ℚ
  confidence_risk_label : String
  warnings : List Warning
  warning_count : ℕ
  overrides : List Override
  anomalies_detected : ℕ
  drift_status : DriftResult
  verdict : String
deriving Repr

/-- One OverseerLog audit row as assembled by _log_to_db (warnings_json is
kept as the structured list it serializes). -/
structure AuditEntry where
  crop : String
  mandi : String
  original_decision : String
  final_decision : String
  reason : Option String
  verdict : String
  confidence_before : ℚ
  confidence_after : ℚ
  warning_count : ℕ
  anomaly_count : ℕ
  drift_detected : Bool
  warnings_list : List Warning
deriving Repr

/-- The final_decision / override_reason loop at the end of Overseer.evaluate:
the last recommendation-field override wins. -/
def applyRecOverrides (rec : String) (ovs : List Override) : String × Option String :=
  ovs.foldl
    (fun st o =>
      if o.field = "recommendation" then
        ((match o.new_value with | .s v => v | .i n => toString n), some o.reason)
      else st)
    (rec, none)

/-- Sum of the six checks' penalties as subtracted from the score inside
Overseer.evaluate (check 5 contributes 0.1 when drift is detected). -/
def totalPenalty (rd : RecommendationData) (forecastPrices : Option (List ℚ))
    (feat : Option FeatureContext) (ctx : DbContext) : ℚ :=
  (checkAnomalies rd.current_price rd.peak_price rd.wait_days forecastPrices).penalty +
  (crossValidateForecast ctx.history rd.current_price rd.peak_price rd.wait_days).penalty +
  (checkPerishableRisk rd.crop rd.recommendation rd.wait_days rd.risk_level).penalty +
  (checkDataQuality feat).penalty +
  (if (detectDrift ctx.recent7 ctx.baseline23).detected then 0.1 else 0) +
  (checkHistoricalAccuracy ctx.error_pcts).penalty

/-- The running score of Overseer.evaluate after the six subtractions, in
the exact order the source performs them. -/
def scoreChain (rd : RecommendationData) (forecastPrices : Option (List ℚ))
    (feat : Option FeatureContext) (ctx : DbContext) : ℚ :=
  0.95 - (checkAnomalies rd.current_price rd.peak_price rd.wait_days forecastPrices).penalty
       - (crossValidateForecast ctx.history rd.current_price rd.peak_price rd.wait_days).penalty
       - (checkPerishableRisk rd.crop rd.recommendation rd.wait_days rd.risk_level).penalty
       - (checkDataQuality feat).penalty
       - (if (detectDrift ctx.recent7 ctx.baseline23).detected then 0.1 else 0)
       - (checkHistoricalAccuracy ctx.error_pcts).penalty

/-- Overseer.evaluate: runs the six checks, clamps the score, assigns the
verdict, and assembles both the returned oversight dict and the audit row
handed to _log_to_db. -/
def evaluateFull (rd : RecommendationData) (forecastPrices : Option (List ℚ))
    (feat : Option FeatureContext) (ctx : DbContext) : Oversight × AuditEntry :=
  let a := checkAnomalies rd.current_price rd.peak_price rd.wait_days forecastPrices
  let cv := crossValidateForecast ctx.history rd.current_price rd.peak_price rd.wait_days
  let per := checkPerishableRisk rd.crop rd.recommendation rd.wait_days rd.risk_level
  let q := checkDataQuality feat
  let dr := detectDrift ctx.recent7 ctx.baseline23
  let act := reactToDrift dr rd.recommendation rd.wait_days rd.crop
  let acc := checkHistoricalAccuracy ctx.error_pcts
  let score := 0.95 - a.penalty - cv.penalty - per.penalty - q.penalty -
      (if dr.detected then 0.1 else 0) - acc.penalty
  let warnings := a.warnings ++ cv.warnings ++ per.warnings ++ q.warnings ++
      (if dr.detected then ⟨"DRIFT_DETECTED", "medium"⟩ :: act.warnings else []) ++
      acc.warnings
  let overrides := per.override.toList ++
      (if dr.detected then act.override.toList else [])
  let adjusted := max 0.40 (min 0.95 score)
  let verdict :=
    if overrides ≠ [] then "OVERRIDDEN"
    else if 2 ≤ a.count ∨ adjusted < 0.5 then "FLAGGED"
    else if warnings ≠ [] then "APPROVED_WITH_WARNINGS"
    else "APPROVED"
  let fin := applyRecOverrides rd.recommendation overrides
  ({ adjusted_confidence := round3 adjusted
   , original_confidence := 0.95
   , confidence_delta := round3 (adjusted - 0.95)
   , confidence_risk_label := confidenceToRiskLabel adjusted
   , warnings := warnings
   , warning_count := warnings.length
   , overrides := overrides
   , anomalies_detected := a.count
   , drift_status := dr
   , verdict := verdict },
   { crop := rd.crop
   , mandi := rd.mandi
   , original_decision := rd.recommendation
   , final_decision := fin.1
   , reason := fin.2
   , verdict := verdict
   , confidence_before := 0.95
   , confidence_after := adjusted
   , warning_count := warnings.length
   , anomaly_count := a.count
   , drift_detected := dr.detected
   , warnings_list := warnings })

/-- The oversight dict Overseer.evaluate returns. -/
def overseerResult (rd : RecommendationData) (forecastPrices : Option (List ℚ))
    (feat : Option FeatureContext) (ctx : DbContext) : Oversight :=
  (evaluateFull rd forecastPrices feat ctx).1

/-- The audit row Overseer.evaluate hands to _log_to_db. -/
def overseerAudit (rd : RecommendationData) (forecastPrices : Option (List ℚ))
    (feat : Option FeatureContext) (ctx : DbContext) : AuditEntry :=
  (evaluateFull rd forecastPrices feat ctx).2

/-- _log_to_db with the database commit outcome as a boolean oracle: an
exception from the commit is caught and swallowed (rollback), so the call
returns normally either way; it records one attempt regardless. -/
def logToDb (entry : AuditEntry) (commitOk : Bool) : Bool × List AuditEntry :=
  (commitOk, [entry])

/-- Overseer.evaluate including its audit side effect: the oversight dict it
returns together with the list of audit-write attempts made. -/
def evaluateWithLog (rd : RecommendationData) (forecastPrices : Option (List ℚ))
    (feat : Option FeatureContext) (ctx : DbContext) (commitOk : Bool) :
    Oversight × List AuditEntry :=
  let r := evaluateFull rd forecastPrices feat ctx
  (r.1, (logToDb r.2 commitOk).2)

/-! ## Rolling forecaster (karnataka_predictor.py / maharashtra_predictor.py)

The trained XGBoost regressor and the month-indexed bias correction are data,
not code; each day's model output plus bias correction (raw + corr) and the
festival boost percentage looked up for that day are taken as oracle inputs.
-/

/-- The overnight-change clamp inside the forecast loops: if the candidate
price moves more than prev * maxPct/100 away from the previous day, cap it at
prev plus or minus that delta, preserving direction. -/
def clampDaily (maxPct prev p : ℚ) : ℚ :=
  if prev * maxPct / 100 < |p - prev| then
    (if prev < p then prev + prev * maxPct / 100 else prev - prev * maxPct / 100)
  else p

/-- One iteration of the forecast loop body, for the given commodity floor
and max daily percentage: price = max(raw + corr, floor), then the festival
multiplier, then the overnight clamp against the previous rolling price. -/
def forecastStep (floorP maxPct prev rawCorr boost : ℚ) : ℚ :=
  clampDaily maxPct prev (max rawCorr floorP * (1 + boost / 100))

/-- The unrounded rolling_prices produced by the forecast loop for days
1..n, seeded with the previous price prev; each day consumes an oracle pair
(raw + corr, festival boost pct). -/
def rollingInternal (floorP maxPct : ℚ) : ℚ → List (ℚ × ℚ) → List ℚ
  | _, [] => []
  | prev, (rc, b) :: rest =>
    let p := forecastStep floorP maxPct prev rc b
    p :: rollingInternal floorP maxPct p rest

/-- Groundnut floor: MSP_2025 * 0.85 = 6783 * 0.85 Rs/quintal. -/
def gnFloor : ℚ := 6783 * 0.85

/-- predict() price assembly shared by GroundnutPredictor (floor gnFloor)
and CabbagePredictor (floor 150): price_adj = max(price*(1+boost/100),
floor), reported rounded to a whole rupee. -/
def predictPrice (floorP rawCorr boost : ℚ) : ℤ :=
  roundHalfEven (max (rawCorr * (1 + boost / 100)) floorP)

/-- The reported prices of a rolling forecast: today's predicted_price (an
integer, heading the rolling_prices list) followed by round(price) for each
forecast day, as placed in the forecast_list dicts. -/
def reportedForecast (floorP maxPct : ℚ) (today : ℤ) (days : List (ℚ × ℚ)) :
    List ℤ :=
  today :: (rollingInternal floorP maxPct (today : ℚ) days).map roundHalfEven

/-- The internal (pre-rounding) rolling_prices list, today included. -/
def internalChain (floorP maxPct : ℚ) (today : ℤ) (days : List (ℚ × ℚ)) :
    List ℚ :=
  (today : ℚ) :: rollingInternal floorP maxPct (today : ℚ) days

/-- The reported integer prices viewed as rationals. -/
def ratCastList (l : List ℤ) : List ℚ := l.map fun n => ((n : ℤ) : ℚ)

/-! ## Market resolution (_build_feature_row) -/

/-- Helper for Python str.split(): walk the characters, accumulating the
current token reversed; whitespace ends a token, and empty tokens are
dropped. -/
def splitWsAux : List Char → List Char → List String
  | [], acc => if acc.isEmpty then [] else [String.mk acc.reverse]
  | c :: cs, acc =>
    if c.isWhitespace then
      (if acc.isEmpty then [] else [String.mk acc.reverse]) ++ splitWsAux cs []
    else splitWsAux cs (c :: acc)

/-- Python str.split() with no argument: split on whitespace runs, dropping
empty tokens. -/
def pySplitWs (s : String) : List String := splitWsAux s.toList []

/-- Python str.lower() (the market names are ASCII). -/
def lowerChars (s : String) : List Char := s.toList.map Char.toLower

/-- Python substring containment needle in hay, on character lists. -/
def subListOf (needle : List Char) : List Char → Bool
  | [] => needle.isEmpty
  | h :: t => needle.isPrefixOf (h :: t) || subListOf needle t

/-- market.split()[0].lower() in c.lower() of the source. -/
def strContains (hay needle : String) : Bool :=
  subListOf (lowerChars needle) (lowerChars hay)

/-- The fallback branch of market resolution: substring-match the first
token of the market string against the vocabulary, else take the first
vocabulary entry.  none models the uncaught IndexError of market.split()[0]
on a tokenless string (head? is none on an empty vocabulary, the other
IndexError). -/
def resolveFromTokens (cats : List String) : List String → Option String
  | [] => none
  | tok :: _ =>
    match cats.filter (fun c => strContains c tok) with
    | [] => cats.head?
    | m :: _ => some m

/-- The market-resolution block of _build_feature_row. -/
def resolveMarket (cats : List String) (market : String) : Option String :=
  if market ∈ cats then some market
  else resolveFromTokens cats (pySplitWs market)

/-! ## Scenario confidence (mysuru_agri_ai/pipeline/predict.py) -/

/-- _compute_scenario_confidence, scalar over exact rationals. -/
def computeScenarioConf (mean lo hi cvConf : ℚ) : ℚ :=
  let base := npClip cvConf 0 100
  let width := hi - lo
  let relWidth := if mean ≠ 0 then width / |mean| else width
  let rwc := npClip relWidth 0.05 0.5
  let factor := npClip (1.2 - rwc / 0.5) 0.3 1.1
  npClip (base * factor) 5 98

/-- Modelled from the spec: the claimed formula, confidence =
clamp(cv_confidence * interval_factor, 5, 98) where interval_factor linearly
maps the relative width clipped to the interval 0.05..0.5 onto 1.1..0.2
(0.05 to 1.1, 0.5 to 0.2). -/
def claimedScenarioConf (mean lo hi cvConf : ℚ) : ℚ :=
  let width := hi - lo
  let relWidth := if mean ≠ 0 then width / |mean| else width
  let rwc := npClip relWidth 0.05 0.5
  let factor := 1.1 - (rwc - 0.05) * 2
  npClip (cvConf * factor) 5 98

/-- The amended formula: as claimed, but the cross-validation confidence is
first clipped to 0..100 and the linear interval factor is floored at 0.3, so
relative widths of 0.45 and above all yield factor 0.3. -/
def amendedScenarioConf (mean lo hi cvConf : ℚ) : ℚ :=
  let width := hi - lo
  let relWidth := if mean ≠ 0 then width / |mean| else width
  let rwc := npClip relWidth 0.05 0.5
  let factor := max 0.3 (1.1 - (rwc - 0.05) * 2)
  npClip (npClip cvConf 0 100 * factor) 5 98

/-! ## Properties of banker's rounding -/

theorem roundHalfEven_intCast (n : ℤ) : roundHalfEven (n : ℚ) = n := by
  unfold roundHalfEven
  rw [Int.floor_intCast]
  norm_num

theorem abs_roundHalfEven_sub_le (q : ℚ) : |(roundHalfEven q : ℚ) - q| ≤ 1/2 := by
  have h0 : (⌊q⌋ : ℚ) ≤ q := Int.floor_le q
  have h1 : q < ⌊q⌋ + 1 := Int.lt_floor_add_one q
  unfold roundHalfEven
  split_ifs with hr1 hr2 hpar <;> rw [abs_le] <;> constructor <;> push_cast <;> linarith

theorem roundHalfEven_ge (q : ℚ) : q - 1/2 ≤ (roundHalfEven q : ℚ) := by
  have h := abs_roundHalfEven_sub_le q
  rw [abs_le] at h
  linarith [h.1]

theorem roundHalfEven_le (q : ℚ) : (roundHalfEven q : ℚ) ≤ q + 1/2 := by
  have h := abs_roundHalfEven_sub_le q
  rw [abs_le] at h
  linarith [h.2]

theorem abs_round1_sub_le (q : ℚ) : |round1 q - q| ≤ 1/20 := by
  unfold round1
  have h := abs_roundHalfEven_sub_le (10 * q)
  rw [show (roundHalfEven (10 * q) : ℚ) / 10 - q =
      ((roundHalfEven (10 * q) : ℚ) - 10 * q) / 10 by ring, abs_div,
    show |(10 : ℚ)| = 10 by norm_num]
  linarith

/-! ## Multiples of one thousandth

All Overseer penalties are integer multiples of 0.001, so the final
round(adjusted_confidence, 3) is the identity; the Mil predicate tracks
this. -/

def Mil (q : ℚ) : Prop := ∃ n : ℤ, q = (n : ℚ) / 1000

theorem Mil.zero : Mil 0 := ⟨0, by norm_num⟩

theorem Mil.lit {a : ℚ} (n : ℤ) (h : a = (n : ℚ) / 1000) : Mil a := ⟨n, h⟩

theorem Mil.add {a b : ℚ} (ha : Mil a) (hb : Mil b) : Mil (a + b) := by
  obtain ⟨m, rfl⟩ := ha; obtain ⟨n, rfl⟩ := hb
  exact ⟨m + n, by push_cast; ring⟩

theorem Mil.sub {a b : ℚ} (ha : Mil a) (hb : Mil b) : Mil (a - b) := by
  obtain ⟨m, rfl⟩ := ha; obtain ⟨n, rfl⟩ := hb
  exact ⟨m - n, by push_cast; ring⟩

theorem Mil.ite (c : Prop) [Decidable c] {a b : ℚ} (ha : Mil a) (hb : Mil b) :
    Mil (if c then a else b) := by
  split <;> assumption

theorem Mil.max {a b : ℚ} (ha : Mil a) (hb : Mil b) : Mil (max a b) := by
  rcases max_choice a b with h | h <;> rw [h] <;> assumption

theorem Mil.min {a b : ℚ} (ha : Mil a) (hb : Mil b) : Mil (min a b) := by
  rcases min_choice a b with h | h <;> rw [h] <;> assumption

theorem round3_eq_of_mil {q : ℚ} (h : Mil q) : round3 q = q := by
  obtain ⟨n, rfl⟩ := h
  unfold round3
  rw [show (1000 : ℚ) * ((n : ℚ) / 1000) = (n : ℚ) by ring, roundHalfEven_intCast]

/-! ## Nonempty string helpers -/

theorem ne_empty_of_data_ne_nil (s : String) (h : s.data ≠ []) : s ≠ "" := by
  intro he
  apply h
  rw [he]

theorem append_data_ne_nil_left (s t : String) (h : s.data ≠ []) :
    (s ++ t).data ≠ [] := by
  rw [String.data_append]
  intro he
  exact h (List.append_eq_nil.mp he).1

/-! ## Mil facts for the six check penalties -/

theorem mil_anomalies (c p : ℚ) (w : ℤ) (fp : Option (List ℚ)) :
    Mil (checkAnomalies c p w fp).penalty := by
  simp only [checkAnomalies]
  refine Mil.add (Mil.add (Mil.add ?_ ?_) ?_) ?_
  · exact Mil.ite _ (Mil.lit 150 (by norm_num)) Mil.zero
  · exact Mil.ite _ (Mil.lit 100 (by norm_num)) Mil.zero
  · exact Mil.ite _ (Mil.lit 80 (by norm_num)) Mil.zero
  · exact Mil.ite _ (Mil.lit 80 (by norm_num)) Mil.zero

theorem mil_crossval (h : List ℚ) (c p : ℚ) (w : ℤ) :
    Mil (crossValidateForecast h c p w).penalty := by
  simp only [crossValidateForecast]
  split_ifs <;> first
    | exact Mil.zero
    | exact Mil.lit 100 (by norm_num)

theorem perishableInfo_cases (crop : String) :
    perishableInfo crop = none ∨ perishableInfo crop = some (14, 2.5) ∨
    perishableInfo crop = some (3, 4.0) ∨ perishableInfo crop = some (7, 3.0) := by
  unfold perishableInfo
  split_ifs <;> simp

theorem mil_perish (crop rec : String) (w : ℤ) (rk : String) :
    Mil (checkPerishableRisk crop rec w rk).penalty := by
  unfold checkPerishableRisk
  rcases perishableInfo_cases crop with h | h | h | h <;> rw [h]
  · exact Mil.zero
  · exact Mil.add (Mil.add (Mil.ite _ (Mil.lit 100 (by norm_num)) Mil.zero)
      (Mil.ite _ (Mil.lit 150 (by norm_num)) Mil.zero))
      (Mil.ite _ (Mil.lit 125 (by norm_num)) Mil.zero)
  · exact Mil.add (Mil.add (Mil.ite _ (Mil.lit 100 (by norm_num)) Mil.zero)
      (Mil.ite _ (Mil.lit 150 (by norm_num)) Mil.zero))
      (Mil.ite _ (Mil.lit 200 (by norm_num)) Mil.zero)
  · exact Mil.add (Mil.add (Mil.ite _ (Mil.lit 100 (by norm_num)) Mil.zero)
      (Mil.ite _ (Mil.lit 150 (by norm_num)) Mil.zero))
      (Mil.ite _ (Mil.lit 150 (by norm_num)) Mil.zero)

theorem mil_quality (feat : Option FeatureContext) :
    Mil (checkDataQuality feat).penalty := by
  unfold checkDataQuality
  cases feat with
  | none => exact Mil.lit 100 (by norm_num)
  | some f =>
    refine Mil.add (Mil.add ?_ ?_) ?_
    · exact Mil.ite _ (Mil.lit 50 (by norm_num)) Mil.zero
    · exact Mil.ite _ (Mil.lit 30 (by norm_num)) Mil.zero
    · exact Mil.ite _ (Mil.lit 30 (by norm_num)) Mil.zero

theorem mil_accuracy (errs : List ℚ) : Mil (checkHistoricalAccuracy errs).penalty := by
  simp only [checkHistoricalAccuracy]
  split_ifs
  · exact Mil.zero
  · exact Mil.lit 150 (by norm_num)
  · exact Mil.lit 80 (by norm_num)
  · exact Mil.zero

theorem mil_totalPenalty (rd : RecommendationData) (fp : Option (List ℚ))
    (feat : Option FeatureContext) (ctx : DbContext) :
    Mil (totalPenalty rd fp feat ctx) := by
  unfold totalPenalty
  exact ((((mil_anomalies _ _ _ _).add (mil_crossval _ _ _ _)).add
    (mil_perish _ _ _ _)).add (mil_quality _)).add
    (Mil.ite _ (Mil.lit 100 (by norm_num)) Mil.zero) |>.add (mil_accuracy _)

theorem mil_scoreChain (rd : RecommendationData) (fp : Option (List ℚ))
    (feat : Option FeatureContext) (ctx : DbContext) :
    Mil (scoreChain rd fp feat ctx) := by
  unfold scoreChain
  exact ((((((Mil.lit 950 (by norm_num)).sub (mil_anomalies _ _ _ _)).sub
    (mil_crossval _ _ _ _)).sub (mil_perish _ _ _ _)).sub (mil_quality _)).sub
    (Mil.ite _ (Mil.lit 100 (by norm_num)) Mil.zero)).sub (mil_accuracy _)

/-! ## Structural lemmas about Overseer.evaluate -/

theorem overseerResult_adjusted (rd : RecommendationData) (fp : Option (List ℚ))
    (feat : Option FeatureContext) (ctx : DbContext) :
    (overseerResult rd fp feat ctx).adjusted_confidence =
      round3 (max 0.40 (min 0.95 (scoreChain rd fp feat ctx))) := rfl

theorem overseerResult_overrides (rd : RecommendationData) (fp : Option (List ℚ))
    (feat : Option FeatureContext) (ctx : DbContext) :
    (overseerResult rd fp feat ctx).overrides =
      (checkPerishableRisk rd.crop rd.recommendation rd.wait_days rd.risk_level).override.toList ++
      (if (detectDrift ctx.recent7 ctx.baseline23).detected then
        (reactToDrift (detectDrift ctx.recent7 ctx.baseline23) rd.recommendation
          rd.wait_days rd.crop).override.toList
      else []) := rfl

theorem overseerResult_verdict (rd : RecommendationData) (fp : Option (List ℚ))
    (feat : Option FeatureContext) (ctx : DbContext) :
    (overseerResult rd fp feat ctx).verdict =
      if (overseerResult rd fp feat ctx).overrides ≠ [] then "OVERRIDDEN"
      else if 2 ≤ (overseerResult rd fp feat ctx).anomalies_detected ∨
          max 0.40 (min 0.95 (scoreChain rd fp feat ctx)) < 0.5 then "FLAGGED"
      else if (overseerResult rd fp feat ctx).warnings ≠ [] then "APPROVED_WITH_WARNINGS"
      else "APPROVED" := rfl

theorem checkPerishableRisk_override (crop rec : String) (wait : ℤ) (rk : String) :
    (checkPerishableRisk crop rec wait rk).override = perishOverride crop rec wait := by
  unfold checkPerishableRisk perishOverride
  cases perishableInfo crop with
  | none => rfl
  | some pr => obtain ⟨D, mult⟩ := pr; rfl

theorem reactToDrift_override (dr : DriftResult) (rec : String) (wait : ℤ)
    (crop : String) :
    (reactToDrift dr rec wait crop).override = driftOverride dr rec wait crop := rfl

theorem perishOverride_eq (crop rec : String) (wait D : ℤ) (mult : ℚ)
    (hinfo : perishableInfo crop = some (D, mult)) (hrec : rec = "HOLD")
    (hw : D < wait) :
    perishOverride crop rec wait = some (mkPerishOverride crop wait D) := by
  unfold perishOverride
  rw [hinfo]
  exact if_pos ⟨hrec, hw⟩

theorem perishOverride_field (crop rec : String) (wait : ℤ) (o : Override)
    (h : perishOverride crop rec wait = some o) : o.field = "recommendation" := by
  unfold perishOverride at h
  split at h
  · exact Option.noConfusion h
  · split at h
    · injection h with h2
      rw [← h2]
      rfl
    · exact Option.noConfusion h

theorem driftOverride_sell (dr : DriftResult) (rec : String) (wait : ℤ) (crop : String)
    (h15 : 15 < dr.shiftPct) (hdir : dr.direction = "downward") (hrec : rec = "HOLD") :
    driftOverride dr rec wait crop = some (mkDriftSell dr.shiftPct crop) := by
  unfold driftOverride
  exact if_pos ⟨h15, hdir, hrec⟩

theorem mkPerishOverride_reason_ne (crop : String) (wait maxDays : ℤ) :
    (mkPerishOverride crop wait maxDays).reason ≠ "" := by
  unfold mkPerishOverride
  apply ne_empty_of_data_ne_nil
  repeat apply append_data_ne_nil_left
  decide

theorem mkDriftSell_reason_ne (shiftPct : ℚ) (crop : String) :
    (mkDriftSell shiftPct crop).reason ≠ "" := by
  unfold mkDriftSell
  apply ne_empty_of_data_ne_nil
  repeat apply append_data_ne_nil_left
  decide

theorem detectDrift_detected_of_shift (recent baseline : List ℚ)
    (h15 : 15 < (detectDrift recent baseline).shiftPct) :
    (detectDrift recent baseline).detected = true := by
  unfold detectDrift at h15 ⊢
  by_cases hlen : recent.length < 3 ∨ baseline.length < 5
  · rw [if_pos hlen] at h15
    norm_num at h15
  · rw [if_neg hlen] at h15 ⊢
    change 15 < round1 (driftShift recent baseline) at h15
    change decide (10 < driftShift recent baseline) = true
    have h1 := abs_round1_sub_le (driftShift recent baseline)
    rw [abs_le] at h1
    exact decide_eq_true (by linarith [h1.2])

/-! ## Claim theorems: the Overseer -/

/-- C1: For every call to Overseer.evaluate, whatever the recommendation
data, forecast data, features and historical context, the adjusted
confidence of the returned oversight result equals
clamp(0.95 - sum of the six checks penalties, 0.40, 0.95), and in
particular lies between 0.40 and 0.95. -/
theorem overseer_confidence_clamped (rd : RecommendationData)
    (fp : Option (List ℚ)) (feat : Option FeatureContext) (ctx : DbContext) :
    (overseerResult rd fp feat ctx).adjusted_confidence =
        max 0.40 (min 0.95 (0.95 - totalPenalty rd fp feat ctx)) ∧
    0.40 ≤ (overseerResult rd fp feat ctx).adjusted_confidence ∧
    (overseerResult rd fp feat ctx).adjusted_confidence ≤ 0.95 := by
  have hchain : scoreChain rd fp feat ctx = 0.95 - totalPenalty rd fp feat ctx := by
    unfold scoreChain totalPenalty
    ring
  have hval : (overseerResult rd fp feat ctx).adjusted_confidence =
      max 0.40 (min 0.95 (0.95 - totalPenalty rd fp feat ctx)) := by
    rw [overseerResult_adjusted, hchain]
    exact round3_eq_of_mil (Mil.max (Mil.lit 400 (by norm_num))
      (Mil.min (Mil.lit 950 (by norm_num))
        ((Mil.lit 950 (by norm_num)).sub (mil_totalPenalty _ _ _ _))))
  refine ⟨hval, ?_, ?_⟩
  · rw [hval]; exact le_max_left _ _
  · rw [hval]; exact max_le (by norm_num) (min_le_left _ _)

/-- C5: The verdict of every Overseer.evaluate call follows the priority
cascade: a nonempty overrides list gives OVERRIDDEN; otherwise at least two
anomalies or adjusted confidence below 0.5 gives FLAGGED; otherwise any
warning gives APPROVED_WITH_WARNINGS; otherwise APPROVED. -/
theorem overseer_verdict_priority (rd : RecommendationData)
    (fp : Option (List ℚ)) (feat : Option FeatureContext) (ctx : DbContext) :
    (overseerResult rd fp feat ctx).verdict =
      if (overseerResult rd fp feat ctx).overrides ≠ [] then "OVERRIDDEN"
      else if 2 ≤ (overseerResult rd fp feat ctx).anomalies_detected ∨
          (overseerResult rd fp feat ctx).adjusted_confidence < 0.5 then "FLAGGED"
      else if (overseerResult rd fp feat ctx).warnings ≠ [] then "APPROVED_WITH_WARNINGS"
      else "APPROVED" := by
  have hadj : (overseerResult rd fp feat ctx).adjusted_confidence =
      max 0.40 (min 0.95 (scoreChain rd fp feat ctx)) := by
    rw [overseerResult_adjusted]
    exact round3_eq_of_mil (Mil.max (Mil.lit 400 (by norm_num))
      (Mil.min (Mil.lit 950 (by norm_num)) (mil_scoreChain _ _ _ _)))
  rw [hadj, overseerResult_verdict]

/-- C2: For every crop in the perishable table with its max-safe-days
(Onion 14, Sugarcane 3, Tomato 7), a HOLD recommendation with wait_days
beyond that bound yields verdict OVERRIDDEN and an override of the
recommendation field to SELL NOW with a non-empty reason. -/
theorem perishable_hard_stop (rd : RecommendationData) (fp : Option (List ℚ))
    (feat : Option FeatureContext) (ctx : DbContext)
    (hcrop : (rd.crop = "Onion" ∧ 14 < rd.wait_days) ∨
             (rd.crop = "Sugarcane" ∧ 3 < rd.wait_days) ∨
             (rd.crop = "Tomato" ∧ 7 < rd.wait_days))
    (hrec : rd.recommendation = "HOLD") :
    (overseerResult rd fp feat ctx).verdict = "OVERRIDDEN" ∧
    ∃ o ∈ (overseerResult rd fp feat ctx).overrides,
      o.field = "recommendation" ∧ o.new_value = OvVal.s "SELL NOW" ∧ o.reason ≠ "" := by
  have hinfo : ∃ D mult, perishableInfo rd.crop = some (D, mult) ∧ D < rd.wait_days := by
    rcases hcrop with ⟨h, hw⟩ | ⟨h, hw⟩ | ⟨h, hw⟩ <;> rw [h] <;> exact ⟨_, _, rfl, hw⟩
  obtain ⟨D, mult, hinfo, hw⟩ := hinfo
  have hov := perishOverride_eq rd.crop rd.recommendation rd.wait_days D mult hinfo hrec hw
  have hmem : mkPerishOverride rd.crop rd.wait_days D ∈
      (overseerResult rd fp feat ctx).overrides := by
    rw [overseerResult_overrides, checkPerishableRisk_override, hov]
    exact List.mem_append_left _ (List.mem_cons_self _ _)
  have hne : (overseerResult rd fp feat ctx).overrides ≠ [] := by
    intro hempty
    rw [hempty] at hmem
    exact List.not_mem_nil _ hmem
  constructor
  · rw [overseerResult_verdict, if_pos hne]
  · exact ⟨mkPerishOverride rd.crop rd.wait_days D, hmem, rfl, rfl,
      mkPerishOverride_reason_ne _ _ _⟩

/-- C6: Whenever drift is detected with a reported shift percentage above 15
and a downward direction while the recommendation is HOLD, the oversight
result contains an override of the recommendation to SELL NOW and the
verdict is OVERRIDDEN. -/
theorem drift_downward_forces_sell (rd : RecommendationData)
    (fp : Option (List ℚ)) (feat : Option FeatureContext) (ctx : DbContext)
    (h15 : 15 < (detectDrift ctx.recent7 ctx.baseline23).shiftPct)
    (hdir : (detectDrift ctx.recent7 ctx.baseline23).direction = "downward")
    (hrec : rd.recommendation = "HOLD") :
    (∃ o ∈ (overseerResult rd fp feat ctx).overrides,
        o.field = "recommendation" ∧ o.new_value = OvVal.s "SELL NOW" ∧ o.reason ≠ "") ∧
    (overseerResult rd fp feat ctx).verdict = "OVERRIDDEN" := by
  have hdet := detectDrift_detected_of_shift _ _ h15
  have hov := driftOverride_sell (detectDrift ctx.recent7 ctx.baseline23)
    rd.recommendation rd.wait_days rd.crop h15 hdir hrec
  have hmem : mkDriftSell (detectDrift ctx.recent7 ctx.baseline23).shiftPct rd.crop ∈
      (overseerResult rd fp feat ctx).overrides := by
    rw [overseerResult_overrides, if_pos hdet, reactToDrift_override, hov]
    exact List.mem_append_right _ (List.mem_cons_self _ _)
  have hne : (overseerResult rd fp feat ctx).overrides ≠ [] := by
    intro hempty
    rw [hempty] at hmem
    exact List.not_mem_nil _ hmem
  refine ⟨⟨mkDriftSell (detectDrift ctx.recent7 ctx.baseline23).shiftPct rd.crop,
    hmem, rfl, rfl, mkDriftSell_reason_ne _ _⟩, ?_⟩
  rw [overseerResult_verdict, if_pos hne]

/-- C10: When both drift rules fire on one evaluation (reported shift above
15, downward, HOLD, wait_days above 14), the drift override slot holds only
the SELL NOW recommendation override: the oversight result contains that
override and no override of the wait_days field at all. -/
theorem drift_single_override (rd : RecommendationData)
    (fp : Option (List ℚ)) (feat : Option FeatureContext) (ctx : DbContext)
    (h15 : 15 < (detectDrift ctx.recent7 ctx.baseline23).shiftPct)
    (hdir : (detectDrift ctx.recent7 ctx.baseline23).direction = "downward")
    (hrec : rd.recommendation = "HOLD")
    (_hw14 : 14 < rd.wait_days) :
    (∃ o ∈ (overseerResult rd fp feat ctx).overrides,
        o.field = "recommendation" ∧ o.new_value = OvVal.s "SELL NOW") ∧
    ∀ o ∈ (overseerResult rd fp feat ctx).overrides, o.field ≠ "wait_days" := by
  have hdet := detectDrift_detected_of_shift _ _ h15
  have hov := driftOverride_sell (detectDrift ctx.recent7 ctx.baseline23)
    rd.recommendation rd.wait_days rd.crop h15 hdir hrec
  constructor
  · refine ⟨mkDriftSell (detectDrift ctx.recent7 ctx.baseline23).shiftPct rd.crop,
      ?_, rfl, rfl⟩
    rw [overseerResult_overrides, if_pos hdet, reactToDrift_override, hov]
    exact List.mem_append_right _ (List.mem_cons_self _ _)
  · intro o ho
    rw [overseerResult_overrides, if_pos hdet, reactToDrift_override, hov] at ho
    rcases List.mem_append.mp ho with hl | hr
    · have hsome : (checkPerishableRisk rd.crop rd.recommendation rd.wait_days
          rd.risk_level).override = some o := by
        rw [Option.mem_toList, Option.mem_def] at hl
        exact hl
      rw [checkPerishableRisk_override] at hsome
      rw [perishOverride_field _ _ _ _ hsome]
      decide
    · have hsell : o = mkDriftSell (detectDrift ctx.recent7 ctx.baseline23).shiftPct
          rd.crop := by
        rcases List.mem_cons.mp hr with h | h
        · exact h
        · exact absurd h (List.not_mem_nil _)
      rw [hsell]
      show ("recommendation" : String) ≠ "wait_days"
      decide

/-- C8: Every Overseer.evaluate call makes exactly one audit-write attempt
whose entry records the original and final decision, the before and after
confidence and the full warning list; a failing commit (the boolean oracle)
is swallowed and the returned oversight result is identical to the one
returned when the commit succeeds. -/
theorem audit_single_write_swallowed (rd : RecommendationData)
    (fp : Option (List ℚ)) (feat : Option FeatureContext) (ctx : DbContext)
    (b b' : Bool) :
    (evaluateWithLog rd fp feat ctx b).1 = overseerResult rd fp feat ctx ∧
    (evaluateWithLog rd fp feat ctx b).2 = [overseerAudit rd fp feat ctx] ∧
    evaluateWithLog rd fp feat ctx b = evaluateWithLog rd fp feat ctx b' ∧
    (overseerAudit rd fp feat ctx).original_decision = rd.recommendation ∧
    (overseerAudit rd fp feat ctx).final_decision =
      (applyRecOverrides rd.recommendation (overseerResult rd fp feat ctx).overrides).1 ∧
    (overseerAudit rd fp feat ctx).confidence_before = 0.95 ∧
    round3 (overseerAudit rd fp feat ctx).confidence_after =
      (overseerResult rd fp feat ctx).adjusted_confidence ∧
    (overseerAudit rd fp feat ctx).warnings_list = (overseerResult rd fp feat ctx).warnings ∧
    (overseerAudit rd fp feat ctx).verdict = (overseerResult rd fp feat ctx).verdict ∧
    (overseerAudit rd fp feat ctx).anomaly_count =
      (overseerResult rd fp feat ctx).anomalies_detected :=
  ⟨rfl, rfl, rfl, rfl, rfl, rfl, rfl, rfl, rfl, rfl⟩

/-! ## Concrete Overseer scenarios for witnesses -/

/-- An Onion HOLD recommendation for 20 days. -/
def rdOnion : RecommendationData :=
  { crop := "Onion", current_price := 1500, peak_price := 1600, wait_days := 20,
    risk_level := "LOW", recommendation := "HOLD", mandi := "Pune Mandi" }

/-- A non-perishable HOLD recommendation for 20 days. -/
def rdHold : RecommendationData :=
  { crop := "Wheat", current_price := 100, peak_price := 105, wait_days := 20,
    risk_level := "LOW", recommendation := "HOLD", mandi := "Pune Mandi" }

/-- No historical context at all. -/
def ctxEmpty : DbContext := ⟨[], [], [], []⟩

/-- Historical context exhibiting a 20 percent downward drift: recent week
at 80 Rs against a baseline of 100 Rs. -/
def ctxDrift : DbContext := ⟨[], [80, 80, 80], [100, 100, 100, 100, 100], []⟩

theorem detectDrift_ctxDrift :
    detectDrift ctxDrift.recent7 ctxDrift.baseline23 = ⟨true, 20, "downward"⟩ := by
  show detectDrift ([80, 80, 80] : List ℚ) ([100, 100, 100, 100, 100] : List ℚ) = _
  have hr : meanQ ([80, 80, 80] : List ℚ) = 80 := by
    unfold meanQ
    norm_num
  have hb : meanQ ([100, 100, 100, 100, 100] : List ℚ) = 100 := by
    unfold meanQ
    norm_num
  unfold detectDrift driftShift
  rw [hr, hb]
  norm_num [round1, roundHalfEven, abs_of_nonpos]

/-- C2 witness: the Onion HOLD for 20 days is overridden to SELL NOW. -/
theorem perishable_hard_stop_witness :
    ((rdOnion.crop = "Onion" ∧ (14 : ℤ) < rdOnion.wait_days) ∧
     rdOnion.recommendation = "HOLD") ∧
    ((overseerResult rdOnion none none ctxEmpty).verdict = "OVERRIDDEN" ∧
     ∃ o ∈ (overseerResult rdOnion none none ctxEmpty).overrides,
       o.field = "recommendation" ∧ o.new_value = OvVal.s "SELL NOW" ∧ o.reason ≠ "") :=
  ⟨⟨⟨rfl, by decide⟩, rfl⟩,
   perishable_hard_stop rdOnion none none ctxEmpty (Or.inl ⟨rfl, by decide⟩) rfl⟩

/-- C6 witness: the 20 percent downward drift forces SELL NOW on the HOLD. -/
theorem drift_downward_forces_sell_witness :
    (15 < (detectDrift ctxDrift.recent7 ctxDrift.baseline23).shiftPct ∧
     (detectDrift ctxDrift.recent7 ctxDrift.baseline23).direction = "downward" ∧
     rdHold.recommendation = "HOLD") ∧
    ((∃ o ∈ (overseerResult rdHold none none ctxDrift).overrides,
        o.field = "recommendation" ∧ o.new_value = OvVal.s "SELL NOW" ∧ o.reason ≠ "") ∧
     (overseerResult rdHold none none ctxDrift).verdict = "OVERRIDDEN") := by
  have h15 : 15 < (detectDrift ctxDrift.recent7 ctxDrift.baseline23).shiftPct := by
    rw [detectDrift_ctxDrift]
    norm_num
  have hdir : (detectDrift ctxDrift.recent7 ctxDrift.baseline23).direction =
      "downward" := by
    rw [detectDrift_ctxDrift]
  exact ⟨⟨h15, hdir, rfl⟩,
    drift_downward_forces_sell rdHold none none ctxDrift h15 hdir rfl⟩

/-- C10 witness: with the same drift and a 20-day HOLD, only the
recommendation override survives, no wait_days override. -/
theorem drift_single_override_witness :
    (15 < (detectDrift ctxDrift.recent7 ctxDrift.baseline23).shiftPct ∧
     (detectDrift ctxDrift.recent7 ctxDrift.baseline23).direction = "downward" ∧
     rdHold.recommendation = "HOLD" ∧ (14 : ℤ) < rdHold.wait_days) ∧
    ((∃ o ∈ (overseerResult rdHold none none ctxDrift).overrides,
        o.field = "recommendation" ∧ o.new_value = OvVal.s "SELL NOW") ∧
     ∀ o ∈ (overseerResult rdHold none none ctxDrift).overrides,
       o.field ≠ "wait_days") := by
  have h15 : 15 < (detectDrift ctxDrift.recent7 ctxDrift.baseline23).shiftPct := by
    rw [detectDrift_ctxDrift]
    norm_num
  have hdir : (detectDrift ctxDrift.recent7 ctxDrift.baseline23).direction =
      "downward" := by
    rw [detectDrift_ctxDrift]
  exact ⟨⟨h15, hdir, rfl, by decide⟩,
    drift_single_override rdHold none none ctxDrift h15 hdir rfl (by decide)⟩

/-! ## Rolling-forecast lemmas -/

theorem forecastStep_bound (floorP maxPct prev rc b : ℚ)
    (hpct : 0 ≤ maxPct) (hprev : 0 ≤ prev) :
    |forecastStep floorP maxPct prev rc b - prev| ≤ prev * maxPct / 100 := by
  unfold forecastStep clampDaily
  have hd : 0 ≤ prev * maxPct / 100 := by positivity
  split_ifs with h1 h2
  · rw [show prev + prev * maxPct / 100 - prev = prev * maxPct / 100 by ring,
      abs_of_nonneg hd]
  · rw [show prev - prev * maxPct / 100 - prev = -(prev * maxPct / 100) by ring,
      abs_neg, abs_of_nonneg hd]
  · exact not_lt.mp h1

theorem forecastStep_nonneg (floorP maxPct prev rc b : ℚ)
    (hpct0 : 0 ≤ maxPct) (hpct1 : maxPct ≤ 100) (hprev : 0 ≤ prev) :
    0 ≤ forecastStep floorP maxPct prev rc b := by
  have hb := forecastStep_bound floorP maxPct prev rc b hpct0 hprev
  rw [abs_le] at hb
  have h2 : prev * maxPct ≤ prev * 100 := mul_le_mul_of_nonneg_left hpct1 hprev
  linarith [hb.1]

theorem rolling_chain (floorP maxPct : ℚ) (hpct0 : 0 ≤ maxPct) (hpct1 : maxPct ≤ 100) :
    ∀ (days : List (ℚ × ℚ)) (prev : ℚ), 0 ≤ prev →
      List.Chain' (fun a b => |b - a| ≤ a * maxPct / 100 ∧ 0 ≤ a ∧ 0 ≤ b)
        (prev :: rollingInternal floorP maxPct prev days) := by
  intro days
  induction days with
  | nil => intro prev _; exact List.chain'_singleton _
  | cons d rest ih =>
    intro prev hprev
    obtain ⟨rc, b⟩ := d
    rw [show rollingInternal floorP maxPct prev ((rc, b) :: rest) =
        forecastStep floorP maxPct prev rc b ::
          rollingInternal floorP maxPct (forecastStep floorP maxPct prev rc b) rest
      from rfl, List.chain'_cons]
    have hnn := forecastStep_nonneg floorP maxPct prev rc b hpct0 hpct1 hprev
    exact ⟨⟨forecastStep_bound floorP maxPct prev rc b hpct0 hprev, hprev, hnn⟩,
      ih _ hnn⟩

theorem chain_round_transfer (maxPct : ℚ) (hpct0 : 0 ≤ maxPct) (l : List ℚ)
    (h : List.Chain' (fun a b => |b - a| ≤ a * maxPct / 100 ∧ 0 ≤ a ∧ 0 ≤ b) l) :
    List.Chain' (fun a b => |b - a| ≤ a * maxPct / 100 + (1 + maxPct / 200))
      (l.map fun x => (roundHalfEven x : ℚ)) := by
  rw [List.chain'_map]
  refine h.imp ?_
  intro a b hab
  obtain ⟨hb, ha0, hb0⟩ := hab
  have hra := abs_roundHalfEven_sub_le a
  have hrb := abs_roundHalfEven_sub_le b
  rw [abs_le] at hra hrb hb ⊢
  have h1 : a ≤ (roundHalfEven a : ℚ) + 1/2 := by linarith [hra.1]
  have h2 : a * maxPct ≤ ((roundHalfEven a : ℚ) + 1/2) * maxPct :=
    mul_le_mul_of_nonneg_right h1 hpct0
  have h3 : ((roundHalfEven a : ℚ) + 1/2) * maxPct =
      (roundHalfEven a : ℚ) * maxPct + maxPct / 2 := by ring
  rw [h3] at h2
  constructor <;> linarith [hra.1, hra.2, hrb.1, hrb.2, hb.1, hb.2]

/-! ## Claim theorems: the rolling forecaster -/

/-- C3 counterexample: the claimed delta bound fails on the reported
(rounded) prices.  With today reported at 5784 Rs and a raw model output of
7000 for day one, the clamp produces 5957.52 which is reported rounded as
5958, and the reported move of 174 exceeds 5784 * 3% = 173.52. -/
theorem daily_delta_bound_cex :
    reportedForecast gnFloor 3 (predictPrice gnFloor 5784 0) [(7000, 0)] =
      [5784, 5958] ∧
    ¬ (|(5958 : ℚ) - 5784| ≤ 5784 * (3 / 100)) := by
  constructor
  · have hpred : predictPrice gnFloor 5784 0 = 5784 := by
      unfold predictPrice gnFloor roundHalfEven
      norm_num
    rw [hpred]
    unfold reportedForecast rollingInternal rollingInternal forecastStep clampDaily
    norm_num [gnFloor, roundHalfEven]
  · norm_num

/-- C3 (amended): in a rolling forecast the daily delta bound holds exactly
for the internal (pre-rounding) clamped price sequence, today's point
included; the reported prices are these rounded to whole rupees and satisfy
the bound with an additive rounding slack below 1 + max_daily_pct/200
rupees. -/
theorem daily_delta_bound (floorP maxPct : ℚ) (today : ℤ) (days : List (ℚ × ℚ))
    (hpct0 : 0 ≤ maxPct) (hpct1 : maxPct ≤ 100) (htoday : 0 ≤ today) :
    List.Chain' (fun a b => |b - a| ≤ a * maxPct / 100)
      (internalChain floorP maxPct today days) ∧
    List.Chain' (fun a b => |b - a| ≤ a * maxPct / 100 + (1 + maxPct / 200))
      (ratCastList (reportedForecast floorP maxPct today days)) := by
  have htq : (0 : ℚ) ≤ ((today : ℤ) : ℚ) := by exact_mod_cast htoday
  have hchain := rolling_chain floorP maxPct hpct0 hpct1 days (today : ℚ) htq
  constructor
  · exact hchain.imp (fun a b hab => hab.1)
  · have htrans := chain_round_transfer maxPct hpct0 _ hchain
    have heq : ratCastList (reportedForecast floorP maxPct today days) =
        (internalChain floorP maxPct today days).map
          (fun x => (roundHalfEven x : ℚ)) := by
      unfold ratCastList reportedForecast internalChain
      rw [List.map_cons, List.map_cons, List.map_map, roundHalfEven_intCast]
      rfl
    rw [heq]
    exact htrans

/-- C3 (amended) witness at the counterexample instance: floor gnFloor,
3 percent daily cap, today 5784, one forecast day with raw output 7000. -/
theorem daily_delta_bound_witness :
    ((0 : ℚ) ≤ 3 ∧ (3 : ℚ) ≤ 100 ∧ (0 : ℤ) ≤ 5784) ∧
    List.Chain' (fun a b => |b - a| ≤ a * 3 / 100)
      (internalChain gnFloor 3 5784 [(7000, 0)]) ∧
    List.Chain' (fun a b => |b - a| ≤ a * 3 / 100 + (1 + 3 / 200))
      (ratCastList (reportedForecast gnFloor 3 5784 [(7000, 0)])) :=
  ⟨⟨by norm_num, by norm_num, by norm_num⟩,
   (daily_delta_bound gnFloor 3 5784 [(7000, 0)] (by norm_num) (by norm_num)
     (by norm_num)).1,
   (daily_delta_bound gnFloor 3 5784 [(7000, 0)] (by norm_num) (by norm_num)
     (by norm_num)).2⟩

/-! ## Floor-invariant lemmas -/

theorem forecastStep_floor (floorP maxPct prev rc b : ℚ)
    (hf0 : 0 ≤ floorP) (hb0 : 0 ≤ b) (hpct : 0 ≤ maxPct) (hprev : floorP ≤ prev) :
    floorP ≤ forecastStep floorP maxPct prev rc b := by
  unfold forecastStep clampDaily
  have hmax : floorP ≤ max rc floorP := le_max_right _ _
  have hp2 : floorP ≤ max rc floorP * (1 + b / 100) := by
    have h2 : (1 : ℚ) ≤ 1 + b / 100 := by linarith
    calc floorP ≤ max rc floorP := hmax
      _ = max rc floorP * 1 := (mul_one _).symm
      _ ≤ max rc floorP * (1 + b / 100) :=
          mul_le_mul_of_nonneg_left h2 (le_trans hf0 hmax)
  have hprev0 : 0 ≤ prev := le_trans hf0 hprev
  have hd : 0 ≤ prev * maxPct / 100 := by positivity
  split_ifs with h1 h2
  · linarith
  · have hle : max rc floorP * (1 + b / 100) ≤ prev := not_lt.mp h2
    rw [abs_of_nonpos (by linarith)] at h1
    linarith
  · exact hp2

theorem rolling_floor (floorP maxPct : ℚ) (hf0 : 0 ≤ floorP) (hpct : 0 ≤ maxPct) :
    ∀ (days : List (ℚ × ℚ)) (prev : ℚ), floorP ≤ prev →
      (∀ p ∈ days, 0 ≤ p.2) →
      ∀ x ∈ rollingInternal floorP maxPct prev days, floorP ≤ x := by
  intro days
  induction days with
  | nil =>
    intro prev _ _ x hx
    simp [rollingInternal] at hx
  | cons d rest ih =>
    intro prev hprev hb x hx
    obtain ⟨rc, b⟩ := d
    have hb0 : 0 ≤ b := hb (rc, b) (List.mem_cons_self _ _)
    have hstep := forecastStep_floor floorP maxPct prev rc b hf0 hb0 hpct hprev
    rw [show rollingInternal floorP maxPct prev ((rc, b) :: rest) =
        forecastStep floorP maxPct prev rc b ::
          rollingInternal floorP maxPct (forecastStep floorP maxPct prev rc b) rest
      from rfl] at hx
    rcases List.mem_cons.mp hx with rfl | hx2
    · exact hstep
    · exact ih _ hstep (fun p hp => hb p (List.mem_cons_of_mem _ hp)) x hx2

theorem roundHE_ge_gnFloor {q : ℚ} (h : gnFloor ≤ q) :
    gnFloor ≤ (roundHalfEven q : ℚ) := by
  have hr := roundHalfEven_ge q
  have hg : gnFloor = 5765.55 := by norm_num [gnFloor]
  have h1 : (5765 : ℤ) < roundHalfEven q := by
    have : (5765 : ℚ) < (roundHalfEven q : ℚ) := by rw [hg] at h; linarith
    exact_mod_cast this
  have h2 : (5766 : ℤ) ≤ roundHalfEven q := by omega
  have h3 : (5766 : ℚ) ≤ (roundHalfEven q : ℚ) := by exact_mod_cast h2
  rw [hg]
  linarith

theorem roundHE_ge_150 {q : ℚ} (h : (150 : ℚ) ≤ q) :
    (150 : ℚ) ≤ (roundHalfEven q : ℚ) := by
  have hr := roundHalfEven_ge q
  have h1 : (149 : ℤ) < roundHalfEven q := by
    have : (149 : ℚ) < (roundHalfEven q : ℚ) := by linarith
    exact_mod_cast this
  have h2 : (150 : ℤ) ≤ roundHalfEven q := by omega
  exact_mod_cast h2

/-- C4: Every price reported by predict and every price of a rolling
forecast (today's point and the rounded forecast-day prices) is at least
the commodity floor: 85 percent of MSP 6783 for groundnut, and the absolute
minimum of 150 Rs/quintal for cabbage, for all model outputs and all
non-negative festival boosts. -/
theorem floor_invariant :
    (∀ rc b : ℚ, gnFloor ≤ (predictPrice gnFloor rc b : ℚ)) ∧
    (∀ rc b : ℚ, (150 : ℚ) ≤ (predictPrice 150 rc b : ℚ)) ∧
    (∀ (today : ℤ) (days : List (ℚ × ℚ)), gnFloor ≤ (today : ℚ) →
      (∀ p ∈ days, 0 ≤ p.2) →
      ∀ n ∈ reportedForecast gnFloor 3 today days, gnFloor ≤ (n : ℚ)) ∧
    (∀ (today : ℤ) (days : List (ℚ × ℚ)), (150 : ℚ) ≤ (today : ℚ) →
      (∀ p ∈ days, 0 ≤ p.2) →
      ∀ n ∈ reportedForecast 150 15 today days, (150 : ℚ) ≤ (n : ℚ)) := by
  refine ⟨?_, ?_, ?_, ?_⟩
  · intro rc b
    exact roundHE_ge_gnFloor (le_max_right _ _)
  · intro rc b
    exact roundHE_ge_150 (le_max_right _ _)
  · intro today days ht hb n hn
    unfold reportedForecast at hn
    rcases List.mem_cons.mp hn with rfl | hn2
    · exact ht
    · obtain ⟨x, hx, rfl⟩ := List.mem_map.mp hn2
      exact roundHE_ge_gnFloor
        (rolling_floor gnFloor 3 (by norm_num [gnFloor]) (by norm_num) days _ ht hb x hx)
  · intro today days ht hb n hn
    unfold reportedForecast at hn
    rcases List.mem_cons.mp hn with rfl | hn2
    · exact ht
    · obtain ⟨x, hx, rfl⟩ := List.mem_map.mp hn2
      exact roundHE_ge_150
        (rolling_floor 150 15 (by norm_num) (by norm_num) days _ ht hb x hx)

/-- C4 witness: the groundnut rolling-forecast branch applied at today
price 5766, one day with raw output 5000 and festival boost 2 percent. -/
theorem floor_invariant_witness :
    (gnFloor ≤ ((5766 : ℤ) : ℚ) ∧ (∀ p ∈ [((5000 : ℚ), (2 : ℚ))], 0 ≤ p.2)) ∧
    (∀ n ∈ reportedForecast gnFloor 3 5766 [(5000, 2)], gnFloor ≤ (n : ℚ)) :=
  ⟨⟨by norm_num [gnFloor], by norm_num⟩,
   floor_invariant.2.2.1 5766 [(5000, 2)] (by norm_num [gnFloor]) (by norm_num)⟩

/-! ## Claim theorems: market resolution -/

/-- C9 counterexample: resolving the empty market string against a nonempty
vocabulary fails (the source raises IndexError on market.split()[0]), so
resolution is not total on all input strings. -/
theorem market_resolution_cex :
    resolveMarket ["Davangere APMC"] "" = none := by
  unfold resolveMarket
  rw [if_neg (by simp)]
  decide

/-- C9 (amended): for every nonempty vocabulary and every market string that
is either an exact vocabulary member or contains at least one whitespace
separated token, resolution never fails and returns a vocabulary member:
the exact match, else the first substring match of the first token, else
the first vocabulary entry.  A tokenless (empty or all-whitespace) string
that is not an exact member makes the builder raise instead. -/
theorem market_resolution_total (cats : List String) (market : String)
    (hne : cats ≠ []) (htok : market ∈ cats ∨ pySplitWs market ≠ []) :
    ∃ m ∈ cats, resolveMarket cats market = some m := by
  by_cases hmem : market ∈ cats
  · refine ⟨market, hmem, ?_⟩
    unfold resolveMarket
    rw [if_pos hmem]
  · have htok2 : pySplitWs market ≠ [] := by
      rcases htok with h | h
      · exact absurd h hmem
      · exact h
    obtain ⟨tok, rest, hsplit⟩ : ∃ t r, pySplitWs market = t :: r := by
      cases hpw : pySplitWs market with
      | nil => exact absurd hpw htok2
      | cons t r => exact ⟨t, r, rfl⟩
    have hres : ∃ m ∈ cats, resolveFromTokens cats (tok :: rest) = some m := by
      show ∃ m ∈ cats,
        (match cats.filter (fun c => strContains c tok) with
          | [] => cats.head?
          | q :: _ => some q) = some m
      cases hfil : cats.filter (fun c => strContains c tok) with
      | nil =>
        cases cats with
        | nil => exact absurd rfl hne
        | cons c cs => exact ⟨c, List.mem_cons_self _ _, rfl⟩
      | cons m ms =>
        have hm : m ∈ cats.filter (fun c => strContains c tok) := by
          rw [hfil]
          exact List.mem_cons_self _ _
        exact ⟨m, List.mem_of_mem_filter hm, rfl⟩
    obtain ⟨m, hm, hres⟩ := hres
    refine ⟨m, hm, ?_⟩
    unfold resolveMarket
    rw [if_neg hmem, hsplit]
    exact hres

/-- C9 (amended) witness: a prefix query against a two-market vocabulary. -/
theorem market_resolution_witness :
    ((["Davangere APMC", "Raichur APMC"] : List String) ≠ [] ∧
     pySplitWs "Raichur" ≠ []) ∧
    ∃ m ∈ (["Davangere APMC", "Raichur APMC"] : List String),
      resolveMarket ["Davangere APMC", "Raichur APMC"] "Raichur" = some m :=
  ⟨⟨List.cons_ne_nil _ _, by decide⟩,
   market_resolution_total ["Davangere APMC", "Raichur APMC"] "Raichur"
     (List.cons_ne_nil _ _) (Or.inr (by decide))⟩

/-! ## Claim theorems: scenario confidence -/

/-- C7 counterexample: at mean 100, interval 75..125 (relative width 0.5)
and cross-validation confidence 50, the code yields 15 (interval factor
floored at 0.3) while the claimed formula yields 10 (factor 0.2). -/
theorem scenario_confidence_cex :
    computeScenarioConf 100 75 125 50 = 15 ∧
    claimedScenarioConf 100 75 125 50 = 10 := by
  constructor
  · simp only [computeScenarioConf, npClip]
    norm_num [min_def, max_def, abs_of_pos]
  · simp only [claimedScenarioConf, npClip]
    norm_num [min_def, max_def, abs_of_pos]

/-- C7 (amended): the scenario confidence equals
clamp(clip(cv_confidence, 0, 100) * interval_factor, 5, 98) where
interval_factor is the linear map of the clipped relative width onto
1.1..0.2 additionally floored at 0.3, so widths of 0.45 and above all give
factor 0.3. -/
theorem scenario_confidence_amended (mean lo hi cvConf : ℚ) :
    computeScenarioConf mean lo hi cvConf = amendedScenarioConf mean lo hi cvConf := by
  simp only [computeScenarioConf, amendedScenarioConf, npClip]
  have hlow : (0.05 : ℚ) ≤ min 0.5 (max 0.05 (if mean ≠ 0 then (hi - lo) / |mean| else hi - lo)) :=
    le_min (by norm_num) (le_max_left _ _)
  have h1 : (1.2 : ℚ) - min 0.5 (max 0.05 (if mean ≠ 0 then (hi - lo) / |mean| else hi - lo)) / 0.5 =
      1.1 - (min 0.5 (max 0.05 (if mean ≠ 0 then (hi - lo) / |mean| else hi - lo)) - 0.05) * 2 := by
    ring
  have h2 : min (1.1 : ℚ) (max 0.3 (1.2 - min 0.5 (max 0.05 (if mean ≠ 0 then (hi - lo) / |mean| else hi - lo)) / 0.5)) =
      max 0.3 (1.2 - min 0.5 (max 0.05 (if mean ≠ 0 then (hi - lo) / |mean| else hi - lo)) / 0.5) := by
    apply min_eq_right
    apply max_le (by norm_num)
    linarith [hlow]
  rw [h2, h1]

end Krishimitra
